import Mathlib

/-!
Shallow embedding of `tiger-car` (`src/src/lib.rs`) for checking its
specification.

Floating-point model: the source works on `f64`.  We model an `f64` value as
either NaN or a finite value given by an exact rational (`F64` below);
arithmetic on finite values is exact rational arithmetic, and the
NaN-handling of Rust's `f64::max`, `f64::min`, `==` and `>` is reproduced
(NaN is ignored by `max`/`min`, and every ordered comparison involving NaN
is `false`).  Infinities and signed zeros never arise in the scenarios the
claims quantify over and are left out of the model.  Where a claim is
specifically about IEEE-754 binary64 rounding (claim C8), a separate model
`f64round` of round-to-nearest-ties-to-even binary64 rounding over rationals
is used.
-/

/-- Model of a Rust `f64` value: NaN, or a finite value modelled as an exact
rational. -/
inductive F64 where
  | nan : F64
  | fin : ℚ → F64
deriving DecidableEq

namespace F64

/-- Rust `f64::max`: returns the maximum of the two numbers, ignoring NaN
(if one argument is NaN, the other is returned). -/
def max : F64 → F64 → F64
  | .nan, y => y
  | .fin a, .nan => .fin a
  | .fin a, .fin b => .fin (a ⊔ b)

/-- Rust `f64::min`: returns the minimum of the two numbers, ignoring NaN. -/
def min : F64 → F64 → F64
  | .nan, y => y
  | .fin a, .nan => .fin a
  | .fin a, .fin b => .fin (a ⊓ b)

/-- Rust `==` on `f64`: any comparison with NaN is `false`. -/
def beq : F64 → F64 → Bool
  | .fin a, .fin b => decide (a = b)
  | _, _ => false

/-- Rust `<` on `f64`: any comparison with NaN is `false`.
`x > y` in the source is `F64.lt y x` here. -/
def lt : F64 → F64 → Bool
  | .fin a, .fin b => decide (a < b)
  | _, _ => false

/-- `f64` addition: exact on finite values, NaN-propagating. -/
def add : F64 → F64 → F64
  | .fin a, .fin b => .fin (a + b)
  | _, _ => .nan

/-- `f64` subtraction: exact on finite values, NaN-propagating. -/
def sub : F64 → F64 → F64
  | .fin a, .fin b => .fin (a - b)
  | _, _ => .nan

/-- `f64` multiplication: exact on finite values, NaN-propagating. -/
def mul : F64 → F64 → F64
  | .fin a, .fin b => .fin (a * b)
  | _, _ => .nan

/-- `f64` division: exact on finite values, NaN-propagating.  Division by
zero is modelled as NaN (the model has no infinities; no code path in this
development divides by zero). -/
def div : F64 → F64 → F64
  | .fin a, .fin b => if b = 0 then .nan else .fin (a / b)
  | _, _ => .nan

instance : Add F64 := ⟨F64.add⟩
instance : Sub F64 := ⟨F64.sub⟩
instance : Mul F64 := ⟨F64.mul⟩
instance : Div F64 := ⟨F64.div⟩

@[simp] theorem max_fin_fin (a b : ℚ) : max (.fin a) (.fin b) = .fin (a ⊔ b) := rfl

@[simp] theorem max_nan_left (y : F64) : max .nan y = y := rfl

@[simp] theorem min_fin_fin (a b : ℚ) : min (.fin a) (.fin b) = .fin (a ⊓ b) := rfl

@[simp] theorem min_nan_left (y : F64) : min .nan y = y := rfl

@[simp] theorem beq_fin_fin (a b : ℚ) : beq (.fin a) (.fin b) = decide (a = b) := rfl

@[simp] theorem lt_fin_fin (a b : ℚ) : lt (.fin a) (.fin b) = decide (a < b) := rfl

@[simp] theorem fin_add_fin (a b : ℚ) : fin a + fin b = fin (a + b) := rfl

@[simp] theorem fin_sub_fin (a b : ℚ) : fin a - fin b = fin (a - b) := rfl

@[simp] theorem fin_mul_fin (a b : ℚ) : fin a * fin b = fin (a * b) := rfl

@[simp] theorem fin_div_fin (a b : ℚ) :
    fin a / fin b = if b = 0 then nan else fin (a / b) := rfl

end F64

/-- The clamp `output.max(-1.0).min(1.0)` that opens both `set_output`
implementations (src/src/lib.rs:73 and 177). -/
def clamp (output : F64) : F64 :=
  (output.max (.fin (-1))).min (.fin 1)

@[simp] theorem clamp_fin (v : ℚ) : clamp (.fin v) = .fin ((v ⊔ (-1)) ⊓ 1) := rfl

theorem clamp_nan : clamp F64.nan = .fin (-1) := by
  show F64.min (.fin (-1)) (.fin 1) = .fin (-1)
  rw [F64.min_fin_fin, inf_eq_left.mpr (by norm_num)]

/-- `fn linear_map(input: f64, a: (f64, f64), b: (f64, f64)) -> f64`
(src/src/lib.rs:10-12):
maps `input` from the interval `a` to the interval `b`; no checks are done on
bounds.  `(input - a.0) * (b.1 - b.0) / (a.1 - a.0) + b.0`. -/
def linear_map (input : F64) (a : F64 × F64) (b : F64 × F64) : F64 :=
  (input - a.1) * (b.2 - b.1) / (a.2 - a.1) + b.1

/-- `linear_map` on the standard arguments used by both controllers:
`linear_map(v, (0.0, 1.0), (m, 1.0)) = v * (1 - m) + m` exactly. -/
theorem linear_map_std (v m : ℚ) :
    linear_map (.fin v) (.fin 0, .fin 1) (.fin m, .fin 1) =
      .fin (v * (1 - m) + m) := by
  simp [linear_map]

/-!
`DrivetrainController` (src/src/lib.rs:23-123).  The Rust struct owns a
`gpio::Gpio` handle and two `gpio::OutputPin`s; the handle and the pin
identities carry no duty-cycle state, so the embedding keeps, for each pin,
the duty cycle last written to it.  `set_pwm_frequency(self.frequency, d)` is
modelled as the channel write of duty `d` (the frequency argument is the
constant field `self.frequency` on every call and carries no further state).
-/

/-- State of `DrivetrainController`: the duty cycle currently on each of the
two software-PWM pins, plus the two configuration fields of the Rust
struct. -/
structure DrivetrainController where
  pwm_0 : F64
  pwm_1 : F64
  frequency : F64
  min_duty_cycle : F64
deriving DecidableEq

/-- A single channel write applied to the pair of channel duty cycles:
`false` targets `pwm_0`, `true` targets `pwm_1`. -/
def applyWrite (p : F64 × F64) (w : Bool × F64) : F64 × F64 :=
  if w.1 then (p.1, w.2) else (w.2, p.2)

@[simp] theorem applyWrite_false (p : F64 × F64) (d : F64) :
    applyWrite p (false, d) = (d, p.2) := rfl

@[simp] theorem applyWrite_true (p : F64 × F64) (d : F64) :
    applyWrite p (true, d) = (p.1, d) := rfl

namespace DrivetrainController

/-- `DrivetrainController::new` (src/src/lib.rs:47-60), success path: both
pins are acquired with no PWM running (duty `0.0`); `frequency` is floored at
`0.0` and `min_duty_cycle` clamped into `[0.0, 1.0]`.  Resource-acquisition
failure is external (rppal) and not modelled. -/
def new (frequency min_duty_cycle : F64) : DrivetrainController :=
  { pwm_0 := .fin 0
    pwm_1 := .fin 0
    frequency := frequency.max (.fin 0)
    min_duty_cycle := (min_duty_cycle.max (.fin 0)).min (.fin 1) }

/-- The ordered sequence of channel writes performed by
`DrivetrainController::set_output` (src/src/lib.rs:71-89):
clamp `output` into `[-1.0, 1.0]`; if `output == 0.0` write `0.0` to `pwm_0`
then `0.0` to `pwm_1`; if `output > 0.0` write
`linear_map(output, (0.0, 1.0), (min_duty_cycle, 1.0))` to `pwm_0` then `0.0`
to `pwm_1`; otherwise write `0.0` to `pwm_0` then
`linear_map(-1.0 * output, (0.0, 1.0), (min_duty_cycle, 1.0))` to `pwm_1`. -/
def setOutputWrites (self : DrivetrainController) (output : F64) :
    List (Bool × F64) :=
  let output := clamp output
  if output.beq (.fin 0) then
    [(false, .fin 0), (true, .fin 0)]
  else if (F64.fin 0).lt output then
    [(false, linear_map output (.fin 0, .fin 1) (self.min_duty_cycle, .fin 1)),
     (true, .fin 0)]
  else
    [(false, .fin 0),
     (true, linear_map ((F64.fin (-1)) * output) (.fin 0, .fin 1)
        (self.min_duty_cycle, .fin 1))]

/-- `DrivetrainController::set_output`, success path: both channel writes
succeed and the state after the call is the fold of the write sequence over
the prior channel state. -/
def set_output (self : DrivetrainController) (output : F64) :
    DrivetrainController :=
  let p := (self.setOutputWrites output).foldl applyWrite (self.pwm_0, self.pwm_1)
  { self with pwm_0 := p.1, pwm_1 := p.2 }

/-- The channel states observable during a `set_output` call: the state
before the call and the state after each individual channel write. -/
def setOutputStates (self : DrivetrainController) (output : F64) :
    List (F64 × F64) :=
  (self.setOutputWrites output).scanl applyWrite (self.pwm_0, self.pwm_1)

/-- The write sequence of `set_output` on a finite input `v` with
`0 < v ≤ 1` (the `output > 0.0` branch; the clamp leaves `v` unchanged). -/
theorem drive_setOutputWrites_pos (c : DrivetrainController) (v : ℚ) (h0 : 0 < v)
    (h1 : v ≤ 1) :
    c.setOutputWrites (.fin v) =
      [(false, linear_map (.fin v) (.fin 0, .fin 1) (c.min_duty_cycle, .fin 1)),
       (true, .fin 0)] := by
  have hc : (v ⊔ (-1)) ⊓ 1 = v := by
    rw [sup_eq_left.mpr (by linarith), inf_eq_left.mpr h1]
  simp [setOutputWrites, hc, h0, h0.ne']

/-- The write sequence of `set_output` on a finite input `v` with
`-1 ≤ v < 0` (the final branch; the clamp leaves `v` unchanged). -/
theorem drive_setOutputWrites_neg (c : DrivetrainController) (v : ℚ) (h0 : v < 0)
    (h1 : -1 ≤ v) :
    c.setOutputWrites (.fin v) =
      [(false, .fin 0),
       (true, linear_map (.fin (-v)) (.fin 0, .fin 1)
          (c.min_duty_cycle, .fin 1))] := by
  have hc : (v ⊔ (-1)) ⊓ 1 = v := by
    rw [sup_eq_left.mpr h1, inf_eq_left.mpr (by linarith)]
  have hm : (-1 : ℚ) * v = -v := by ring
  simp [setOutputWrites, hc, h0.ne, not_lt.mpr h0.le, hm]

/-- The write sequence of `set_output` on input `0.0`: both channels are
written `0.0`, `pwm_0` first. -/
theorem drive_setOutputWrites_zero (c : DrivetrainController) :
    c.setOutputWrites (.fin 0) = [(false, .fin 0), (true, .fin 0)] := by
  have hc : ((0 : ℚ) ⊔ (-1)) ⊓ 1 = 0 := by
    rw [sup_eq_left.mpr (by norm_num), inf_eq_left.mpr (by norm_num)]
  simp [setOutputWrites, hc]

/-- `set_output` in terms of its write sequence, applied write by write. -/
theorem drive_set_output_eq_writes (c : DrivetrainController) (v : F64) :
    c.set_output v =
      { c with
        pwm_0 := ((c.setOutputWrites v).foldl applyWrite (c.pwm_0, c.pwm_1)).1
        pwm_1 := ((c.setOutputWrites v).foldl applyWrite (c.pwm_0, c.pwm_1)).2 } :=
  rfl

/-- `set_output` on a finite input `v` with `0 < v ≤ 1`: the resulting state
has the rescaled value on `pwm_0` and `0.0` on `pwm_1`, whatever the prior
channel state and configuration. -/
theorem drive_set_output_pos (c : DrivetrainController) (v : ℚ) (h0 : 0 < v)
    (h1 : v ≤ 1) :
    c.set_output (.fin v) =
      { c with
        pwm_0 := linear_map (.fin v) (.fin 0, .fin 1) (c.min_duty_cycle, .fin 1)
        pwm_1 := .fin 0 } := by
  rw [drive_set_output_eq_writes, drive_setOutputWrites_pos c v h0 h1]
  simp

/-- `set_output` on a finite input `v` with `-1 ≤ v < 0`: the resulting
state has `0.0` on `pwm_0` and the rescaled value of `-v` on `pwm_1`. -/
theorem drive_set_output_neg (c : DrivetrainController) (v : ℚ) (h0 : v < 0)
    (h1 : -1 ≤ v) :
    c.set_output (.fin v) =
      { c with
        pwm_0 := .fin 0
        pwm_1 := linear_map (.fin (-v)) (.fin 0, .fin 1)
          (c.min_duty_cycle, .fin 1) } := by
  rw [drive_set_output_eq_writes, drive_setOutputWrites_neg c v h0 h1]
  simp

/-- `set_output` on input `0.0`: both channels end at `0.0`. -/
theorem drive_set_output_zero (c : DrivetrainController) :
    c.set_output (.fin 0) = { c with pwm_0 := .fin 0, pwm_1 := .fin 0 } := by
  rw [drive_set_output_eq_writes, drive_setOutputWrites_zero c]
  simp

/-- The write sequence of `set_output` on any positive finite input: the
clamp caps it at `1`. -/
theorem drive_setOutputWrites_pos_clamp (c : DrivetrainController) (v : ℚ)
    (h0 : 0 < v) :
    c.setOutputWrites (.fin v) =
      [(false, linear_map (.fin (v ⊓ 1)) (.fin 0, .fin 1)
          (c.min_duty_cycle, .fin 1)),
       (true, .fin 0)] := by
  have hc : (v ⊔ (-1)) ⊓ 1 = v ⊓ 1 := by rw [sup_eq_left.mpr (by linarith)]
  have hpos : 0 < v ⊓ 1 := lt_inf_iff.mpr ⟨h0, one_pos⟩
  simp [setOutputWrites, hc, hpos, hpos.ne']

/-- `set_output` on any positive finite input. -/
theorem drive_set_output_pos_clamp (c : DrivetrainController) (v : ℚ)
    (h0 : 0 < v) :
    c.set_output (.fin v) =
      { c with
        pwm_0 := linear_map (.fin (v ⊓ 1)) (.fin 0, .fin 1)
          (c.min_duty_cycle, .fin 1)
        pwm_1 := .fin 0 } := by
  rw [drive_set_output_eq_writes, drive_setOutputWrites_pos_clamp c v h0]
  simp

/-- `new` on in-range finite arguments: the clamps are identities and both
channels start at duty `0.0`. -/
theorem drive_new_fin (f m : ℚ) (h0 : 0 ≤ f) (h1 : 0 ≤ m) (h2 : m ≤ 1) :
    new (.fin f) (.fin m) =
      { pwm_0 := .fin 0, pwm_1 := .fin 0, frequency := .fin f
        min_duty_cycle := .fin m } := by
  simp only [new, F64.max_fin_fin, F64.min_fin_fin]
  rw [sup_eq_left.mpr h0, sup_eq_left.mpr h1, inf_eq_left.mpr h2]

end DrivetrainController

/-!
`SteeringController` (src/src/lib.rs:133-194).  The Rust struct owns two
hardware `pwm::Pwm` channels and the `min_duty_cycle` field (it stores no
frequency).  `set_duty_cycle(d)` is modelled as the channel write of duty
`d`.
-/

/-- State of `SteeringController`: the duty cycle currently on each of the
two hardware PWM channels, plus the one configuration field of the Rust
struct. -/
structure SteeringController where
  pwm_0 : F64
  pwm_1 : F64
  min_duty_cycle : F64
deriving DecidableEq

namespace SteeringController

/-- `SteeringController::new` (src/src/lib.rs:145-164), success path: both
hardware PWM channels are opened with duty cycle `0.0` (the frequency,
floored at `0.0`, is passed to the channels but not stored);
`min_duty_cycle` is clamped into `[0.0, 1.0]`. -/
def new (_frequency min_duty_cycle : F64) : SteeringController :=
  { pwm_0 := .fin 0
    pwm_1 := .fin 0
    min_duty_cycle := (min_duty_cycle.max (.fin 0)).min (.fin 1) }

/-- The ordered sequence of channel writes performed by
`SteeringController::set_output` (src/src/lib.rs:175-193): same branch
structure and write order as `DrivetrainController::set_output`. -/
def setOutputWrites (self : SteeringController) (output : F64) :
    List (Bool × F64) :=
  let output := clamp output
  if output.beq (.fin 0) then
    [(false, .fin 0), (true, .fin 0)]
  else if (F64.fin 0).lt output then
    [(false, linear_map output (.fin 0, .fin 1) (self.min_duty_cycle, .fin 1)),
     (true, .fin 0)]
  else
    [(false, .fin 0),
     (true, linear_map ((F64.fin (-1)) * output) (.fin 0, .fin 1)
        (self.min_duty_cycle, .fin 1))]

/-- `SteeringController::set_output`, success path. -/
def set_output (self : SteeringController) (output : F64) :
    SteeringController :=
  let p := (self.setOutputWrites output).foldl applyWrite (self.pwm_0, self.pwm_1)
  { self with pwm_0 := p.1, pwm_1 := p.2 }

/-- The channel states observable during a `set_output` call: the state
before the call and the state after each individual channel write. -/
def setOutputStates (self : SteeringController) (output : F64) :
    List (F64 × F64) :=
  (self.setOutputWrites output).scanl applyWrite (self.pwm_0, self.pwm_1)

/-- The write sequence of `set_output` on a finite input `v` with
`0 < v ≤ 1`. -/
theorem steer_setOutputWrites_pos (c : SteeringController) (v : ℚ) (h0 : 0 < v)
    (h1 : v ≤ 1) :
    c.setOutputWrites (.fin v) =
      [(false, linear_map (.fin v) (.fin 0, .fin 1) (c.min_duty_cycle, .fin 1)),
       (true, .fin 0)] := by
  have hc : (v ⊔ (-1)) ⊓ 1 = v := by
    rw [sup_eq_left.mpr (by linarith), inf_eq_left.mpr h1]
  simp [setOutputWrites, hc, h0, h0.ne']

/-- The write sequence of `set_output` on a finite input `v` with
`-1 ≤ v < 0`. -/
theorem steer_setOutputWrites_neg (c : SteeringController) (v : ℚ) (h0 : v < 0)
    (h1 : -1 ≤ v) :
    c.setOutputWrites (.fin v) =
      [(false, .fin 0),
       (true, linear_map (.fin (-v)) (.fin 0, .fin 1)
          (c.min_duty_cycle, .fin 1))] := by
  have hc : (v ⊔ (-1)) ⊓ 1 = v := by
    rw [sup_eq_left.mpr h1, inf_eq_left.mpr (by linarith)]
  have hm : (-1 : ℚ) * v = -v := by ring
  simp [setOutputWrites, hc, h0.ne, not_lt.mpr h0.le, hm]

/-- The write sequence of `set_output` on input `0.0`. -/
theorem steer_setOutputWrites_zero (c : SteeringController) :
    c.setOutputWrites (.fin 0) = [(false, .fin 0), (true, .fin 0)] := by
  have hc : ((0 : ℚ) ⊔ (-1)) ⊓ 1 = 0 := by
    rw [sup_eq_left.mpr (by norm_num), inf_eq_left.mpr (by norm_num)]
  simp [setOutputWrites, hc]

/-- `set_output` in terms of its write sequence. -/
theorem steer_set_output_eq_writes (c : SteeringController) (v : F64) :
    c.set_output v =
      { c with
        pwm_0 := ((c.setOutputWrites v).foldl applyWrite (c.pwm_0, c.pwm_1)).1
        pwm_1 := ((c.setOutputWrites v).foldl applyWrite (c.pwm_0, c.pwm_1)).2 } :=
  rfl

/-- `set_output` on a finite input `v` with `0 < v ≤ 1`. -/
theorem steer_set_output_pos (c : SteeringController) (v : ℚ) (h0 : 0 < v)
    (h1 : v ≤ 1) :
    c.set_output (.fin v) =
      { c with
        pwm_0 := linear_map (.fin v) (.fin 0, .fin 1) (c.min_duty_cycle, .fin 1)
        pwm_1 := .fin 0 } := by
  rw [steer_set_output_eq_writes, steer_setOutputWrites_pos c v h0 h1]
  simp

/-- `set_output` on a finite input `v` with `-1 ≤ v < 0`. -/
theorem steer_set_output_neg (c : SteeringController) (v : ℚ) (h0 : v < 0)
    (h1 : -1 ≤ v) :
    c.set_output (.fin v) =
      { c with
        pwm_0 := .fin 0
        pwm_1 := linear_map (.fin (-v)) (.fin 0, .fin 1)
          (c.min_duty_cycle, .fin 1) } := by
  rw [steer_set_output_eq_writes, steer_setOutputWrites_neg c v h0 h1]
  simp

/-- `set_output` on input `0.0`: both channels end at `0.0`. -/
theorem steer_set_output_zero (c : SteeringController) :
    c.set_output (.fin 0) = { c with pwm_0 := .fin 0, pwm_1 := .fin 0 } := by
  rw [steer_set_output_eq_writes, steer_setOutputWrites_zero c]
  simp

/-- The write sequence of `set_output` on any positive finite input: the
clamp caps it at `1`. -/
theorem steer_setOutputWrites_pos_clamp (c : SteeringController) (v : ℚ)
    (h0 : 0 < v) :
    c.setOutputWrites (.fin v) =
      [(false, linear_map (.fin (v ⊓ 1)) (.fin 0, .fin 1)
          (c.min_duty_cycle, .fin 1)),
       (true, .fin 0)] := by
  have hc : (v ⊔ (-1)) ⊓ 1 = v ⊓ 1 := by rw [sup_eq_left.mpr (by linarith)]
  have hpos : 0 < v ⊓ 1 := lt_inf_iff.mpr ⟨h0, one_pos⟩
  simp [setOutputWrites, hc, hpos, hpos.ne']

/-- `set_output` on any positive finite input. -/
theorem steer_set_output_pos_clamp (c : SteeringController) (v : ℚ)
    (h0 : 0 < v) :
    c.set_output (.fin v) =
      { c with
        pwm_0 := linear_map (.fin (v ⊓ 1)) (.fin 0, .fin 1)
          (c.min_duty_cycle, .fin 1)
        pwm_1 := .fin 0 } := by
  rw [steer_set_output_eq_writes, steer_setOutputWrites_pos_clamp c v h0]
  simp

/-- `new` on in-range finite arguments. -/
theorem steer_new_fin (f m : ℚ) (h1 : 0 ≤ m) (h2 : m ≤ 1) :
    new (.fin f) (.fin m) =
      { pwm_0 := .fin 0, pwm_1 := .fin 0, min_duty_cycle := .fin m } := by
  simp only [new, F64.max_fin_fin, F64.min_fin_fin]
  rw [sup_eq_left.mpr h1, inf_eq_left.mpr h2]

end SteeringController

/-!
`TigerCar` (src/src/lib.rs:205-233): wraps one `DrivetrainController` and
one `SteeringController`.  Note the source's field names: the field called
`steering` holds the `DrivetrainController` and the field called
`drivetrain` holds the `SteeringController`.
-/

/-- `struct TigerCar` (src/src/lib.rs:205-208). -/
structure TigerCar where
  steering : DrivetrainController
  drivetrain : SteeringController
deriving DecidableEq

namespace TigerCar

/-- `TigerCar::new` (src/src/lib.rs:214-220), success path. -/
def new : TigerCar :=
  { steering := DrivetrainController.new (.fin 40) (.fin 0.3)
    drivetrain := SteeringController.new (.fin 50) (.fin 0.5) }

/-- `TigerCar::stop` (src/src/lib.rs:222-226): `set_output(0.0)` on both
wrapped controllers (success path; the source unwraps the results). -/
def stop (self : TigerCar) : TigerCar :=
  { steering := self.steering.set_output (.fin 0)
    drivetrain := self.drivetrain.set_output (.fin 0) }

/-- `impl Drop for TigerCar` (src/src/lib.rs:229-233): dropping a `TigerCar`
runs `stop`, i.e. zeroes both controllers, before the wrapped resources are
released. -/
def onDrop (self : TigerCar) : TigerCar :=
  self.stop

end TigerCar

/-- Channel writes performed by repository code when a
`DrivetrainController` itself is dropped: the source declares no `Drop` impl
for `DrivetrainController`, so dropping one runs no repository code and
leaves the channel duty cycles as they were (whatever the underlying pin
library does on release is outside this repository). -/
def DrivetrainController.onDrop (self : DrivetrainController) :
    DrivetrainController :=
  self

/-- Channel writes performed by repository code when a `SteeringController`
itself is dropped: the source declares no `Drop` impl for
`SteeringController`, so dropping one runs no repository code on the channel
duty cycles. -/
def SteeringController.onDrop (self : SteeringController) :
    SteeringController :=
  self

/-!
Fallible execution of the write sequence.  Each `set_pwm_frequency` /
`set_duty_cycle` call in the source returns a `Result` and is followed by
`?`: the first failing write aborts `set_output` with that error and no
later write is attempted.  `oracle n` is the outcome imposed by the
environment on the `n`-th attempted write of the call (`none` = success,
`some e` = failure with error code `e`); a failed write leaves its target
channel in an arbitrary state `junk n` (the source guarantees nothing about
a channel whose write failed) and every channel not yet written keeps its
prior duty cycle.
-/

/-- Run a write sequence against the pair of channel duty cycles, stopping
at the first failed write. -/
def execWrites (p : F64 × F64) (ws : List (Bool × F64))
    (oracle : Nat → Option Nat) (junk : Nat → F64) (n : Nat) :
    Option Nat × (F64 × F64) :=
  match ws with
  | [] => (none, p)
  | w :: rest =>
    match oracle n with
    | none => execWrites (applyWrite p w) rest oracle junk (n + 1)
    | some e => (some e, if w.1 then (p.1, junk n) else (junk n, p.2))

/-- `DrivetrainController::set_output` with fallible channel writes: the
returned error (if any) and the controller state after the call. -/
def DrivetrainController.setOutputFallible (self : DrivetrainController)
    (output : F64) (oracle : Nat → Option Nat) (junk : Nat → F64) :
    Option Nat × DrivetrainController :=
  let r := execWrites (self.pwm_0, self.pwm_1) (self.setOutputWrites output)
    oracle junk 0
  (r.1, { self with pwm_0 := r.2.1, pwm_1 := r.2.2 })

/-- `SteeringController::set_output` with fallible channel writes. -/
def SteeringController.setOutputFallible (self : SteeringController)
    (output : F64) (oracle : Nat → Option Nat) (junk : Nat → F64) :
    Option Nat × SteeringController :=
  let r := execWrites (self.pwm_0, self.pwm_1) (self.setOutputWrites output)
    oracle junk 0
  (r.1, { self with pwm_0 := r.2.1, pwm_1 := r.2.2 })

/-- Two inputs with the same clamped value drive `DrivetrainController`
through identical write sequences. -/
theorem DrivetrainController.drive_setOutputWrites_congr (c : DrivetrainController)
    {x y : F64} (h : clamp x = clamp y) :
    c.setOutputWrites x = c.setOutputWrites y := by
  unfold DrivetrainController.setOutputWrites
  rw [h]

/-- Two inputs with the same clamped value give identical `set_output`
behaviour on a `DrivetrainController`: same final state and same fallible
outcome against any environment. -/
theorem DrivetrainController.drive_set_output_congr (c : DrivetrainController)
    {x y : F64} (h : clamp x = clamp y) :
    c.set_output x = c.set_output y ∧
      ∀ oracle junk, c.setOutputFallible x oracle junk =
        c.setOutputFallible y oracle junk := by
  refine ⟨?_, fun oracle junk => ?_⟩
  · unfold DrivetrainController.set_output
    rw [c.drive_setOutputWrites_congr h]
  · unfold DrivetrainController.setOutputFallible
    rw [c.drive_setOutputWrites_congr h]

/-- Two inputs with the same clamped value drive `SteeringController`
through identical write sequences. -/
theorem SteeringController.steer_setOutputWrites_congr (c : SteeringController)
    {x y : F64} (h : clamp x = clamp y) :
    c.setOutputWrites x = c.setOutputWrites y := by
  unfold SteeringController.setOutputWrites
  rw [h]

/-- Two inputs with the same clamped value give identical `set_output`
behaviour on a `SteeringController`. -/
theorem SteeringController.steer_set_output_congr (c : SteeringController)
    {x y : F64} (h : clamp x = clamp y) :
    c.set_output x = c.set_output y ∧
      ∀ oracle junk, c.setOutputFallible x oracle junk =
        c.setOutputFallible y oracle junk := by
  refine ⟨?_, fun oracle junk => ?_⟩
  · unfold SteeringController.set_output
    rw [c.steer_setOutputWrites_congr h]
  · unfold SteeringController.setOutputFallible
    rw [c.steer_setOutputWrites_congr h]

/-- Every write sequence produced by either controller's `set_output` writes
`pwm_0` first: its head targets channel `false`. -/
theorem setOutputWrites_shape (c : DrivetrainController)
    (s : SteeringController) (v w : F64) :
    (∃ d rest, c.setOutputWrites v = (false, d) :: rest) ∧
      (∃ d rest, s.setOutputWrites w = (false, d) :: rest) := by
  constructor
  · unfold DrivetrainController.setOutputWrites
    dsimp only
    split
    · exact ⟨_, _, rfl⟩
    · split
      · exact ⟨_, _, rfl⟩
      · exact ⟨_, _, rfl⟩
  · unfold SteeringController.setOutputWrites
    dsimp only
    split
    · exact ⟨_, _, rfl⟩
    · split
      · exact ⟨_, _, rfl⟩
      · exact ⟨_, _, rfl⟩

/-!
IEEE-754 binary64 rounding model, for the one claim (C8) that is about the
`f64` rounding behaviour of `linear_map` rather than its exact value.  A
binary64 result is the nearest value of the form `m * 2 ^ (e - 52)` with a
53-bit integer mantissa, ties going to the even mantissa; each arithmetic
operation rounds its exact rational result.  The model covers the normal
range (no overflow or subnormal handling: every value appearing in this
development is well inside the normal range, where binary64 arithmetic is
exactly round-to-nearest of the exact result).
-/

/-- Round a nonnegative rational to the nearest binary64 value (round to
nearest, ties to even), expressed as a rational. -/
def f64roundPos (q : ℚ) : ℚ :=
  let e : ℤ := Int.log 2 q
  let scaled : ℚ := q * (2 : ℚ) ^ (52 - e)
  let m0 : ℤ := ⌊scaled⌋
  let m : ℤ :=
    if scaled - (m0 : ℚ) < 1 / 2 then m0
    else if (1 : ℚ) / 2 < scaled - (m0 : ℚ) then m0 + 1
    else if m0 % 2 = 0 then m0 else m0 + 1
  (m : ℚ) * (2 : ℚ) ^ (e - 52)

/-- Round a rational to the nearest binary64 value (round to nearest, ties
to even). -/
def f64round (q : ℚ) : ℚ :=
  if q < 0 then -f64roundPos (-q) else f64roundPos q

/-- `q` is (the exact value of) a binary64 number: rounding leaves it
unchanged. -/
def isF64 (q : ℚ) : Prop :=
  f64round q = q

/-- binary64 addition: round the exact sum. -/
def fadd (a b : ℚ) : ℚ := f64round (a + b)

/-- binary64 subtraction: round the exact difference. -/
def fsub (a b : ℚ) : ℚ := f64round (a - b)

/-- binary64 multiplication: round the exact product. -/
def fmul (a b : ℚ) : ℚ := f64round (a * b)

/-- binary64 division: round the exact quotient (division by zero does not
occur at any use site of this model). -/
def fdiv (a b : ℚ) : ℚ := if b = 0 then 0 else f64round (a / b)

/-- `linear_map` as evaluated in binary64 arithmetic, operation by
operation in the source's order:
`(input - a.0) * (b.1 - b.0) / (a.1 - a.0) + b.0`. -/
def linear_map_f64 (input a0 a1 b0 b1 : ℚ) : ℚ :=
  fadd (fdiv (fmul (fsub input a0) (fsub b1 b0)) (fsub a1 a0)) b0

theorem f64round_zero : f64round 0 = 0 := by
  rw [f64round, if_neg (lt_irrefl 0), f64roundPos]
  norm_num

/-- Pin the binary logarithm of a concrete positive rational. -/
theorem log2_eq (q : ℚ) (e : ℤ) (h0 : 0 < q) (h1 : (2 : ℚ) ^ e ≤ q)
    (h2 : q < (2 : ℚ) ^ (e + 1)) : Int.log 2 q = e := by
  have hb : 1 < (2 : ℕ) := one_lt_two
  have hcast : (((2 : ℕ) : ℚ)) = 2 := by norm_num
  have hle : e ≤ Int.log 2 q :=
    (Int.zpow_le_iff_le_log hb h0).mp (by rw [hcast]; exact h1)
  have hlt : Int.log 2 q < e + 1 :=
    (Int.lt_zpow_iff_log_lt hb h0).mp (by rw [hcast]; exact h2)
  omega

/-- Evaluate `f64round` at a nonnegative rational whose logarithm and
scaled floor are known. -/
theorem f64round_eval (q : ℚ) (e m0 : ℤ) (h0 : 0 ≤ q)
    (hlog : Int.log 2 q = e)
    (hfloor : ⌊q * (2 : ℚ) ^ (52 - e)⌋ = m0) :
    f64round q =
      (((if q * (2 : ℚ) ^ (52 - e) - (m0 : ℚ) < 1 / 2 then m0
        else if (1 : ℚ) / 2 < q * (2 : ℚ) ^ (52 - e) - (m0 : ℚ) then m0 + 1
        else if m0 % 2 = 0 then m0 else m0 + 1) : ℤ) : ℚ) *
        (2 : ℚ) ^ (e - 52) := by
  rw [f64round, if_neg (not_lt.mpr h0)]
  simp only [f64roundPos, hlog, hfloor]

/-- A value of the form `m * 2 ^ (e - 52)` whose logarithm is `e` rounds to
itself: it is a binary64 value. -/
theorem isF64_of_form (q : ℚ) (e m : ℤ) (h0 : 0 ≤ q)
    (hq : q = (m : ℚ) * (2 : ℚ) ^ (e - 52)) (hlog : Int.log 2 q = e) :
    isF64 q := by
  have hscale : q * (2 : ℚ) ^ (52 - e) = (m : ℚ) := by
    rw [hq, mul_assoc, ← zpow_add₀ (by norm_num : (2 : ℚ) ≠ 0)]
    norm_num
  have hfloor : ⌊q * (2 : ℚ) ^ (52 - e)⌋ = m := by
    rw [hscale, Int.floor_intCast]
  rw [isF64, f64round_eval q e m h0 hlog hfloor, hscale]
  norm_num
  rw [← hq]

/-- A concrete driver used to refute several over-general claims: the result
of `DrivetrainController::new(60.0, 0.2)`, as in the source's
`run_drivetrain` (src/src/lib.rs:244). -/
theorem new_60_02 :
    DrivetrainController.new (.fin 60) (.fin 0.2) =
      { pwm_0 := .fin 0, pwm_1 := .fin 0, frequency := .fin 60
        min_duty_cycle := .fin 0.2 } :=
  DrivetrainController.drive_new_fin 60 0.2 (by norm_num) (by norm_num) (by norm_num)

/-- After `set_output(-0.5)` the concrete driver drives in reverse:
`pwm_0 = 0.0`, `pwm_1 = 0.6`. -/
theorem drive_after_neg_half :
    (DrivetrainController.new (.fin 60) (.fin 0.2)).set_output
        (.fin (-0.5)) =
      { pwm_0 := .fin 0, pwm_1 := .fin 0.6, frequency := .fin 60
        min_duty_cycle := .fin 0.2 } := by
  rw [new_60_02,
    DrivetrainController.drive_set_output_neg _ (-0.5) (by norm_num) (by norm_num)]
  simp [linear_map_std]
  norm_num

/-!
### The claims
-/

/-- C1: claimed, for every output driver, that at most one of the two
channels is non-zero at every observable instant, each individual channel
write counting as an instant.  Counterexample: starting from the reverse
state reached by `set_output(-0.5)` (channels `(0.0, 0.6)`), the call
`set_output(0.5)` writes the rescaled value `0.6` to `pwm_0` *before*
zeroing `pwm_1`, so after its first write both channels hold `0.6`. -/
theorem C1_counterexample :
    (F64.fin 0.6, F64.fin 0.6) ∈
        (((DrivetrainController.new (.fin 60) (.fin 0.2)).set_output
          (.fin (-0.5))).setOutputStates (.fin 0.5)) ∧
      F64.fin (0.6 : ℚ) ≠ F64.fin 0 := by
  constructor
  · rw [DrivetrainController.setOutputStates, drive_after_neg_half,
      DrivetrainController.drive_setOutputWrites_pos _ 0.5 (by norm_num) (by norm_num)]
    simp [linear_map_std]
    norm_num
  · simp
    norm_num

/-- C1, amended: mutual exclusivity holds at the end of every completed
`set_output` call — the final state of either controller always has at least
one channel at duty `0.0` — but not at every intermediate write instant
(a positive-direction call writes the active channel before zeroing the
other, as the counterexample shows). -/
theorem C1_end_state_exclusive (c : DrivetrainController)
    (s : SteeringController) (v w : F64) :
    ((c.set_output v).pwm_0 = .fin 0 ∨ (c.set_output v).pwm_1 = .fin 0) ∧
      ((s.set_output w).pwm_0 = .fin 0 ∨ (s.set_output w).pwm_1 = .fin 0) := by
  constructor
  · rw [DrivetrainController.drive_set_output_eq_writes]
    unfold DrivetrainController.setOutputWrites
    dsimp only
    split
    · right; simp
    · split
      · right; simp
      · left; simp
  · rw [SteeringController.steer_set_output_eq_writes]
    unfold SteeringController.setOutputWrites
    dsimp only
    split
    · right; simp
    · split
      · right; simp
      · left; simp

/-- C2: claimed that for `v` in `(0.0, 1.0]` a successful `output(v)` leaves
`channel_a` (= `pwm_0`, the first channel) at `0.0` and `channel_b`
(= `pwm_1`) at the rescaled value.  Counterexample: the code writes the
rescaled value to `pwm_0` and `0.0` to `pwm_1` — with `min_duty_cycle = 0.2`,
`set_output(0.5)` leaves `pwm_0 = 0.6 ≠ 0.0`. -/
theorem C2_counterexample :
    ((DrivetrainController.new (.fin 60) (.fin 0.2)).set_output
        (.fin 0.5)).pwm_0 = .fin 0.6 ∧
      F64.fin (0.6 : ℚ) ≠ F64.fin 0 := by
  constructor
  · rw [new_60_02,
      DrivetrainController.drive_set_output_pos _ 0.5 (by norm_num) (by norm_num)]
    simp [linear_map_std]
    norm_num
  · simp
    norm_num

/-- C2, amended (channels swapped relative to the claim): for every driver
and every finite `v` with `0 < v ≤ 1`, a successful `output(v)` leaves
`pwm_1` (the second channel) at `0.0` and `pwm_0` (the first channel) at
`linear_map(v, (0,1), (min_duty_cycle,1))`; symmetrically, `output(-v)`
leaves `pwm_0` at `0.0` and `pwm_1` at the same rescaled value. -/
theorem C2_channel_assignment (c : DrivetrainController)
    (s : SteeringController) (v : ℚ) (h0 : 0 < v) (h1 : v ≤ 1) :
    ((c.set_output (.fin v)).pwm_1 = .fin 0 ∧
      (c.set_output (.fin v)).pwm_0 =
        linear_map (.fin v) (.fin 0, .fin 1) (c.min_duty_cycle, .fin 1)) ∧
    ((s.set_output (.fin v)).pwm_1 = .fin 0 ∧
      (s.set_output (.fin v)).pwm_0 =
        linear_map (.fin v) (.fin 0, .fin 1) (s.min_duty_cycle, .fin 1)) ∧
    ((c.set_output (.fin (-v))).pwm_0 = .fin 0 ∧
      (c.set_output (.fin (-v))).pwm_1 =
        linear_map (.fin v) (.fin 0, .fin 1) (c.min_duty_cycle, .fin 1)) ∧
    ((s.set_output (.fin (-v))).pwm_0 = .fin 0 ∧
      (s.set_output (.fin (-v))).pwm_1 =
        linear_map (.fin v) (.fin 0, .fin 1) (s.min_duty_cycle, .fin 1)) := by
  have hn0 : -v < 0 := by linarith
  have hn1 : -1 ≤ -v := by linarith
  refine ⟨⟨?_, ?_⟩, ⟨?_, ?_⟩, ⟨?_, ?_⟩, ⟨?_, ?_⟩⟩
  · rw [DrivetrainController.drive_set_output_pos c v h0 h1]
  · rw [DrivetrainController.drive_set_output_pos c v h0 h1]
  · rw [SteeringController.steer_set_output_pos s v h0 h1]
  · rw [SteeringController.steer_set_output_pos s v h0 h1]
  · rw [DrivetrainController.drive_set_output_neg c (-v) hn0 hn1]
  · rw [DrivetrainController.drive_set_output_neg c (-v) hn0 hn1]
    simp
  · rw [SteeringController.steer_set_output_neg s (-v) hn0 hn1]
  · rw [SteeringController.steer_set_output_neg s (-v) hn0 hn1]
    simp

/-- C2, amended, witnessed at `v = 0.5` on concrete drivers. -/
theorem C2_witness :
    (0 : ℚ) < 0.5 ∧ (0.5 : ℚ) ≤ 1 ∧
    ((DrivetrainController.mk (.fin 0) (.fin 0) (.fin 60) (.fin 0.2)
        |>.set_output (.fin 0.5)).pwm_1 = .fin 0 ∧
      (DrivetrainController.mk (.fin 0) (.fin 0) (.fin 60) (.fin 0.2)
        |>.set_output (.fin 0.5)).pwm_0 =
        linear_map (.fin 0.5) (.fin 0, .fin 1) (.fin 0.2, .fin 1)) :=
  ⟨by norm_num, by norm_num,
    ((C2_channel_assignment
      { pwm_0 := .fin 0, pwm_1 := .fin 0, frequency := .fin 60,
        min_duty_cycle := .fin 0.2 }
      { pwm_0 := .fin 0, pwm_1 := .fin 0, min_duty_cycle := .fin 0.2 }
      0.5 (by norm_num) (by norm_num)).1)⟩

/-- C3: for every driver state, a successful `output(0.0)` leaves both
channels at duty cycle `0.0` — both controllers take the `output == 0.0`
branch, which writes `0.0` to each channel. -/
theorem C3_zero_zeroes_both (c : DrivetrainController)
    (s : SteeringController) :
    (c.set_output (.fin 0)).pwm_0 = .fin 0 ∧
      (c.set_output (.fin 0)).pwm_1 = .fin 0 ∧
      (s.set_output (.fin 0)).pwm_0 = .fin 0 ∧
      (s.set_output (.fin 0)).pwm_1 = .fin 0 := by
  rw [DrivetrainController.drive_set_output_zero, SteeringController.steer_set_output_zero]
  simp

/-- C4: claimed that *every* driver zeroes both channels on destruction.
Counterexample: only `TigerCar` has a `Drop` impl; a bare
`DrivetrainController` dropped after `set_output(0.7)` keeps `pwm_0` at the
rescaled duty `0.76 ≠ 0.0` (no repository code runs on its drop). -/
theorem C4_counterexample :
    (((DrivetrainController.new (.fin 60) (.fin 0.2)).set_output
        (.fin 0.7)).onDrop).pwm_0 = .fin 0.76 ∧
      F64.fin (0.76 : ℚ) ≠ F64.fin 0 := by
  constructor
  · rw [DrivetrainController.onDrop, new_60_02,
      DrivetrainController.drive_set_output_pos _ 0.7 (by norm_num) (by norm_num)]
    simp [linear_map_std]
    norm_num
  · simp
    norm_num

/-- C4, amended: the teardown guarantee is the `TigerCar` wrapper's.
Dropping a `TigerCar` runs its `Drop` impl, which calls `stop`, leaving all
four wrapped channels at duty `0.0` before the resources are released; the
individual controllers have no `Drop` impl of their own. -/
theorem C4_tigercar_drop_zeroes (t : TigerCar) :
    (t.onDrop.steering.pwm_0 = .fin 0 ∧ t.onDrop.steering.pwm_1 = .fin 0) ∧
      (t.onDrop.drivetrain.pwm_0 = .fin 0 ∧
        t.onDrop.drivetrain.pwm_1 = .fin 0) := by
  simp [TigerCar.onDrop, TigerCar.stop, DrivetrainController.drive_set_output_zero,
    SteeringController.steer_set_output_zero]

/-- C5: for every dead-zone floor `m` in `[0,1]` and every finite `v > 0`,
the duty cycle written to the active channel (`pwm_0`) by `output(v)` is a
finite value in `[m, 1]` and is not `0.0`; concretely, with `m = 0.2`,
`output(0.5)` writes `0.2 + 0.5 * 0.8 = 0.6`. -/
theorem C5_dead_zone_floor (c : DrivetrainController)
    (s : SteeringController) (v m : ℚ) (hm0 : 0 ≤ m) (hm1 : m ≤ 1)
    (hcm : c.min_duty_cycle = .fin m) (hsm : s.min_duty_cycle = .fin m)
    (hv : 0 < v) :
    (∃ q : ℚ, (c.set_output (.fin v)).pwm_0 = .fin q ∧
        m ≤ q ∧ q ≤ 1 ∧ q ≠ 0) ∧
    (∃ q : ℚ, (s.set_output (.fin v)).pwm_0 = .fin q ∧
        m ≤ q ∧ q ≤ 1 ∧ q ≠ 0) ∧
    ((DrivetrainController.new (.fin 60) (.fin 0.2)).set_output
        (.fin 0.5)).pwm_0 = .fin (0.2 + 0.5 * 0.8) ∧
    (0.2 + 0.5 * 0.8 : ℚ) = 0.6 := by
  have hvc0 : 0 < v ⊓ 1 := lt_inf_iff.mpr ⟨hv, one_pos⟩
  have hvc1 : v ⊓ 1 ≤ 1 := inf_le_right
  have hprod : 0 ≤ (v ⊓ 1) * (1 - m) := mul_nonneg hvc0.le (by linarith)
  have hup : (v ⊓ 1) * (1 - m) ≤ 1 - m :=
    mul_le_of_le_one_left (by linarith) hvc1
  have hq0 : 0 < (v ⊓ 1) * (1 - m) + m := by
    rcases hm0.lt_or_eq with h | h
    · linarith
    · rw [← h]
      calc (0 : ℚ) < v ⊓ 1 := hvc0
        _ = (v ⊓ 1) * (1 - 0) + 0 := by ring
  refine ⟨⟨(v ⊓ 1) * (1 - m) + m, ?_, by linarith, by linarith, hq0.ne'⟩,
    ⟨(v ⊓ 1) * (1 - m) + m, ?_, by linarith, by linarith, hq0.ne'⟩, ?_, by norm_num⟩
  · rw [DrivetrainController.drive_set_output_pos_clamp c v hv, hcm, linear_map_std]
  · rw [SteeringController.steer_set_output_pos_clamp s v hv, hsm, linear_map_std]
  · rw [new_60_02,
      DrivetrainController.drive_set_output_pos _ 0.5 (by norm_num) (by norm_num)]
    simp [linear_map_std]
    norm_num

/-- C5, witnessed at `m = 0.2`, `v = 0.5` on concrete drivers. -/
theorem C5_witness :
    (0 : ℚ) ≤ 0.2 ∧ (0.2 : ℚ) ≤ 1 ∧ (0 : ℚ) < 0.5 ∧
    (∃ q : ℚ, (DrivetrainController.mk (.fin 0) (.fin 0) (.fin 60) (.fin 0.2)
        |>.set_output (.fin 0.5)).pwm_0 = .fin q ∧
        (0.2 : ℚ) ≤ q ∧ q ≤ 1 ∧ q ≠ 0) :=
  ⟨by norm_num, by norm_num, by norm_num,
    (C5_dead_zone_floor
      { pwm_0 := .fin 0, pwm_1 := .fin 0, frequency := .fin 60,
        min_duty_cycle := .fin 0.2 }
      { pwm_0 := .fin 0, pwm_1 := .fin 0, min_duty_cycle := .fin 0.2 }
      0.5 0.2 (by norm_num) (by norm_num) rfl rfl (by norm_num)).1⟩

/-- C6: out-of-range inputs are clamped, not rejected: on every driver
state, `output(2.0)` behaves identically to `output(1.0)` and
`output(-5.0)` identically to `output(-1.0)` — identical final channel
states and identical outcomes (including errors) against every
environment. -/
theorem C6_clamping (c : DrivetrainController) (s : SteeringController) :
    (c.set_output (.fin 2) = c.set_output (.fin 1) ∧
      ∀ oracle junk, c.setOutputFallible (.fin 2) oracle junk =
        c.setOutputFallible (.fin 1) oracle junk) ∧
    (c.set_output (.fin (-5)) = c.set_output (.fin (-1)) ∧
      ∀ oracle junk, c.setOutputFallible (.fin (-5)) oracle junk =
        c.setOutputFallible (.fin (-1)) oracle junk) ∧
    (s.set_output (.fin 2) = s.set_output (.fin 1) ∧
      ∀ oracle junk, s.setOutputFallible (.fin 2) oracle junk =
        s.setOutputFallible (.fin 1) oracle junk) ∧
    (s.set_output (.fin (-5)) = s.set_output (.fin (-1)) ∧
      ∀ oracle junk, s.setOutputFallible (.fin (-5)) oracle junk =
        s.setOutputFallible (.fin (-1)) oracle junk) := by
  have h21 : clamp (F64.fin 2) = clamp (F64.fin 1) := by
    rw [clamp_fin, clamp_fin]
    norm_num [inf_eq_min, sup_eq_max, min_def, max_def]
  have h51 : clamp (F64.fin (-5)) = clamp (F64.fin (-1)) := by
    rw [clamp_fin, clamp_fin]
    norm_num [inf_eq_min, sup_eq_max, min_def, max_def]
  exact ⟨c.drive_set_output_congr h21, c.drive_set_output_congr h51,
    s.steer_set_output_congr h21, s.steer_set_output_congr h51⟩

/-- C9: `set_output(NaN)` does not panic (the branch structure handles it:
`NaN.max(-1.0)` returns `-1.0` because Rust's `f64::max` ignores NaN, and
`(-1.0).min(1.0) = -1.0`), and it behaves identically to `set_output(-1.0)`
on every driver state — same final state, same outcome against every
environment — driving the reverse channel while `pwm_0` ends at `0.0`. -/
theorem C9_nan_behaves_as_neg_one (c : DrivetrainController)
    (s : SteeringController) :
    (c.set_output F64.nan = c.set_output (.fin (-1)) ∧
      ∀ oracle junk, c.setOutputFallible F64.nan oracle junk =
        c.setOutputFallible (.fin (-1)) oracle junk) ∧
    (c.set_output F64.nan).pwm_0 = .fin 0 ∧
    (s.set_output F64.nan = s.set_output (.fin (-1)) ∧
      ∀ oracle junk, s.setOutputFallible F64.nan oracle junk =
        s.setOutputFallible (.fin (-1)) oracle junk) ∧
    (s.set_output F64.nan).pwm_0 = .fin 0 := by
  have h : clamp F64.nan = clamp (.fin (-1)) := by
    rw [clamp_nan, clamp_fin, sup_eq_left.mpr (le_refl (-1:ℚ)),
      inf_eq_left.mpr (by norm_num : (-1:ℚ) ≤ 1)]
  refine ⟨c.drive_set_output_congr h, ?_, s.steer_set_output_congr h, ?_⟩
  · rw [(c.drive_set_output_congr h).1,
      DrivetrainController.drive_set_output_neg c (-1) (by norm_num) (le_refl _)]
  · rw [(s.steer_set_output_congr h).1,
      SteeringController.steer_set_output_neg s (-1) (by norm_num) (le_refl _)]

/-- C10: if the environment fails the first channel write of `set_output`
(always the write to `pwm_0`), the call stops there with that error — the
second write is never attempted (the result does not depend on the outcomes
the environment would give later writes), `pwm_1` keeps its prior duty
cycle, and the `frequency` and `min_duty_cycle` fields are unchanged on
every path, success or error. -/
theorem C10_first_write_failure (c : DrivetrainController)
    (s : SteeringController) (v : F64) (oracle : Nat → Option Nat)
    (junk : Nat → F64) (e : Nat) (h : oracle 0 = some e) :
    c.setOutputFallible v oracle junk = (some e, { c with pwm_0 := junk 0 }) ∧
    s.setOutputFallible v oracle junk = (some e, { s with pwm_0 := junk 0 }) ∧
    (∀ oracle' junk',
      ((c.setOutputFallible v oracle' junk').2.frequency = c.frequency ∧
        (c.setOutputFallible v oracle' junk').2.min_duty_cycle =
          c.min_duty_cycle) ∧
      (s.setOutputFallible v oracle' junk').2.min_duty_cycle =
        s.min_duty_cycle) := by
  obtain ⟨⟨d, rest, hc⟩, ⟨d', rest', hs⟩⟩ := setOutputWrites_shape c s v v
  refine ⟨?_, ?_, fun oracle' junk' => ⟨⟨rfl, rfl⟩, rfl⟩⟩
  · rw [DrivetrainController.setOutputFallible, hc]
    simp [execWrites, h]
  · rw [SteeringController.setOutputFallible, hs]
    simp [execWrites, h]

/-- C10, witnessed on concrete drivers with an environment that fails the
first write with error code `7`. -/
theorem C10_witness :
    (fun n => if n = 0 then some 7 else none : Nat → Option Nat) 0 = some 7 ∧
    (DrivetrainController.mk (.fin 0) (.fin 0.6) (.fin 60) (.fin 0.2)
      |>.setOutputFallible (.fin 0.5)
        (fun n => if n = 0 then some 7 else none) (fun _ => .fin 9)) =
      (some 7, DrivetrainController.mk (.fin 9) (.fin 0.6) (.fin 60) (.fin 0.2)) :=
  ⟨rfl,
    (C10_first_write_failure
      { pwm_0 := .fin 0, pwm_1 := .fin 0.6, frequency := .fin 60,
        min_duty_cycle := .fin 0.2 }
      { pwm_0 := .fin 0, pwm_1 := .fin 0, min_duty_cycle := .fin 0.2 }
      (.fin 0.5) (fun n => if n = 0 then some 7 else none) (fun _ => .fin 9)
      7 rfl).1⟩

/-- C8: claimed that `map` is exact at *both* endpoints under the f64
arithmetic the implementation uses.  Counterexample in the binary64 model:
with `a = (0, 3)` and `b = (0, b1)` where `b1 = 3602879701896397 / 2^55` is
the binary64 value nearest `0.1` (all inputs exact binary64 values), the
computation at the upper endpoint `input = 3` rounds twice —
`fl(3 * b1)` ties to even and `fl(fl(3 * b1) / 3)` rounds up — giving
`7205759403792795 / 2^56`, one ulp above `b1 = 7205759403792794 / 2^56`. -/
theorem C8_counterexample :
    linear_map_f64 3 0 3 0 (3602879701896397 / 36028797018963968) =
        7205759403792795 / 72057594037927936 ∧
      (7205759403792795 / 72057594037927936 : ℚ) ≠
        3602879701896397 / 36028797018963968 ∧
      (3 : ℚ) ≠ 0 ∧ isF64 3 ∧ isF64 0 ∧
      isF64 (3602879701896397 / 36028797018963968) := by
  have h3 : isF64 3 := isF64_of_form 3 1 6755399441055744 (by norm_num)
    (by norm_num) (log2_eq 3 1 (by norm_num) (by norm_num) (by norm_num))
  have hq : isF64 (3602879701896397 / 36028797018963968) :=
    isF64_of_form _ (-4) 7205759403792794 (by norm_num) (by norm_num)
      (log2_eq _ (-4) (by norm_num) (by norm_num) (by norm_num))
  have hx : isF64 (7205759403792795 / 72057594037927936) :=
    isF64_of_form _ (-4) 7205759403792795 (by norm_num) (by norm_num)
      (log2_eq _ (-4) (by norm_num) (by norm_num) (by norm_num))
  have e1 : fsub 3 0 = 3 := by
    rw [fsub]
    norm_num
    exact h3
  have e2 : fsub (3602879701896397 / 36028797018963968) 0 =
      3602879701896397 / 36028797018963968 := by
    rw [fsub]
    norm_num
    exact hq
  have e3 : fmul 3 (3602879701896397 / 36028797018963968) =
      1351079888211149 / 4503599627370496 := by
    have r3q : f64round (10808639105689191 / 36028797018963968) =
        1351079888211149 / 4503599627370496 := by
      rw [f64round_eval (10808639105689191 / 36028797018963968) (-2)
        5404319552844595 (by norm_num)
        (log2_eq _ (-2) (by norm_num) (by norm_num) (by norm_num))
        (by norm_num)]
      norm_num
    rw [fmul]
    norm_num [r3q]
  have e4 : fdiv (1351079888211149 / 4503599627370496) 3 =
      7205759403792795 / 72057594037927936 := by
    have r4 : f64round (1351079888211149 / 13510798882111488) =
        7205759403792795 / 72057594037927936 := by
      rw [f64round_eval (1351079888211149 / 13510798882111488) (-4)
        7205759403792794 (by norm_num)
        (log2_eq _ (-4) (by norm_num) (by norm_num) (by norm_num))
        (by norm_num)]
      norm_num
    rw [fdiv, if_neg (by norm_num : (3 : ℚ) ≠ 0)]
    norm_num [r4]
  have e5 : fadd (7205759403792795 / 72057594037927936) 0 =
      7205759403792795 / 72057594037927936 := by
    rw [fadd]
    norm_num
    exact hx
  refine ⟨?_, by norm_num, by norm_num, h3, f64round_zero, hq⟩
  rw [linear_map_f64, e1, e2, e3, e4, e5]

/-- C8, amended: over exact arithmetic `linear_map` is exact at both
endpoints whenever `a.1 ≠ a.0`, and under binary64 rounding the *lower*
endpoint identity still holds whenever `b.0` is a binary64 value (every
intermediate result is exactly zero); the upper endpoint, however, is exact
only up to rounding, and can be one ulp off (see the counterexample). -/
theorem C8_endpoints (input a0 a1 b0 b1 : ℚ) (ha : a1 ≠ a0)
    (hb : isF64 b0) :
    (linear_map (.fin a0) (.fin a0, .fin a1) (.fin b0, .fin b1) = .fin b0 ∧
      linear_map (.fin a1) (.fin a0, .fin a1) (.fin b0, .fin b1) = .fin b1) ∧
    linear_map_f64 a0 a0 a1 b0 b1 = b0 := by
  have hsub : a1 - a0 ≠ 0 := sub_ne_zero.mpr ha
  refine ⟨⟨?_, ?_⟩, ?_⟩
  · simp [linear_map, hsub]
  · simp only [linear_map, F64.fin_sub_fin, F64.fin_mul_fin, F64.fin_div_fin,
      if_neg hsub, F64.fin_add_fin, F64.fin.injEq]
    rw [mul_comm, mul_div_assoc, div_self hsub, mul_one, sub_add_cancel]
  · have hz : fsub a0 a0 = 0 := by
      rw [fsub, sub_self, f64round_zero]
    have hm : fmul 0 (fsub b1 b0) = 0 := by
      rw [fmul, zero_mul, f64round_zero]
    have hd : fdiv 0 (fsub a1 a0) = 0 := by
      rw [fdiv]
      split
      · rfl
      · rw [zero_div, f64round_zero]
    rw [linear_map_f64, hz, hm, hd, fadd, zero_add, hb]

/-- C8, amended, witnessed at `a = (0, 3)`, `b = (0, 2/3)`, `input = 42`. -/
theorem C8_witness :
    (3 : ℚ) ≠ 0 ∧ isF64 0 ∧
    ((linear_map (.fin 0) (.fin 0, .fin 3) (.fin 0, .fin (2/3)) = .fin 0 ∧
      linear_map (.fin 3) (.fin 0, .fin 3) (.fin 0, .fin (2/3)) =
        .fin (2/3)) ∧
    linear_map_f64 0 0 3 0 (2/3) = 0) :=
  ⟨by norm_num, f64round_zero,
    C8_endpoints 42 0 3 0 (2/3) (by norm_num) f64round_zero⟩

/-- C7: `linear_map` computes exactly
`(input - a.0) * (b.1 - b.0) / (a.1 - a.0) + b.0` on every input, with no
bounds checking or clamping, and in particular
`map(6, (0,10), (0,100)) = 60`, `map(6, (0,10), (10,20)) = 16` and
`map(6, (0,10), (5,10)) = 8`. -/
theorem C7_linear_map_formula (input : F64) (a b : F64 × F64) :
    linear_map input a b = (input - a.1) * (b.2 - b.1) / (a.2 - a.1) + b.1 ∧
    linear_map (.fin 6) (.fin 0, .fin 10) (.fin 0, .fin 100) = .fin 60 ∧
    linear_map (.fin 6) (.fin 0, .fin 10) (.fin 10, .fin 20) = .fin 16 ∧
    linear_map (.fin 6) (.fin 0, .fin 10) (.fin 5, .fin 10) = .fin 8 := by
  refine ⟨rfl, ?_, ?_, ?_⟩ <;>
    · simp [linear_map]
      norm_num
